import Mathlib

/-!
Verification of the `TestRepository` CodeArtifact sandbox manager
(`packages/@aws-cdk-testing/cli-integ/lib/staging/codeartifact.ts`).

The TypeScript code is a sequence of asynchronous calls against the AWS
CodeArtifact service.  We embed it shallowly: the service (one domain, a
list of repositories with their records, a paginated repository listing,
the current clock value and a fault-injection oracle for network/API
errors) is an explicit state threaded through an exception-plus-state
monad `StM`.  Every outgoing API call is recorded in a trace, so the
theorems can speak about which calls a run performed and in which order.

Errors are AWS error code strings (`e.code` in the TypeScript `catch`
clauses); `"ResourceNotFoundException"` is the code the source tests for.
-/

namespace CodeArtifact

/-- An AWS error code, as carried by `e.code` in the source's catch blocks. -/
abbrev ErrCode := String

/-- The error code the source compares against (`ResourceNotFoundException`). -/
def resourceNotFound : ErrCode := "ResourceNotFoundException"

/-- One outgoing call (or recorded delay) of a run: the observable trace
of the manager against the CodeArtifact API. -/
inductive Event where
  | describeDomain
  | createDomain
  | describeRepository (name : String)
  | createRepository (name : String)
  | associateExternalConnection (repo external : String)
  | getAuthorizationToken
  | getRepositoryEndpoint (repo format : String)
  | listRepositories
  | listTagsForResource (repo : String)
  | deleteRepository (repo : String)
  | sleep (ms : Nat)
  deriving DecidableEq, Repr

/-- A repository's record in the registry: the data `createRepository`
takes (description, upstream links, tags) plus the external connections
added by `associateExternalConnection`. -/
structure RepoRecord where
  description : Option String := none
  upstreams : List String := []
  externalConnections : List String := []
  tags : List (String × String) := []
  deriving DecidableEq, Repr

/-- The registry world: the single domain of the manager
(`TestRepository.DEFAULT_DOMAIN`), its repositories, how the service
paginates `listRepositories` (a service-side choice, recorded here),
the clock (`Date.now()`, epoch milliseconds), and the fault oracle:
`faults k` is the error code the network/API injects into the `k`-th
outgoing call, `none` for a call that behaves normally.  `callIdx`
counts outgoing calls, `trace` records them. -/
structure World where
  hasDomain : Bool
  repos : List (String × RepoRecord)
  pages : List (List String)
  now : Nat
  faults : Nat → Option ErrCode
  callIdx : Nat
  trace : List Event

/-- Outcome of a run: like `Promise` resolution, but the state (world)
survives a rejection — effects performed before the failure stay. -/
inductive StOutcome (ε σ : Type) (α : Type) where
  | ok (a : α) (s : σ)
  | err (e : ε) (s : σ)
  deriving Repr

/-- Exception-plus-state monad for the embedding: asynchronous code with
sequential `await`s, where a rejection aborts the rest of the
computation but keeps the state reached so far. -/
def StM (ε σ : Type) (α : Type) := σ → StOutcome ε σ α

def StM.pure (a : α) : StM ε σ α := fun s => .ok a s

def StM.bind (x : StM ε σ α) (f : α → StM ε σ β) : StM ε σ β := fun s =>
  match x s with
  | .ok a s1 => f a s1
  | .err e s1 => .err e s1

instance : Monad (StM ε σ) where
  pure := StM.pure
  bind := StM.bind

/-- `try x catch e => handle e`: effects of the failed `x` persist. -/
def StM.tryCatch (x : StM ε σ α) (handle : ε → StM ε σ α) : StM ε σ α := fun s =>
  match x s with
  | .ok a s1 => .ok a s1
  | .err e s1 => handle e s1

/-- `throw e`. -/
def StM.throw (e : ε) : StM ε σ α := fun s => .err e s

/-- The monad used for the registry code. -/
abbrev M (α : Type) := StM ErrCode World α

/-! ## The retry helper (bottom of codeartifact.ts)

```ts
async function retry<A>(block: () => Promise<A>) {
  let attempts = 3;
  while (true) {
    try {
      return await block();
    } catch (e) {
      console.debug(e.message);
      if (attempts-- === 0) { throw e; }
      await sleep(500);
    }
  }
}
```

`attempts-- === 0` compares before decrementing, so the block runs with
`attempts` at 3, 2, 1 and 0: four invocations at most, with a
`sleep(500)` between consecutive ones.  `retryGo` is the loop with the
current `attempts` value made explicit; the `sleep` action is a
parameter (the source imports it from `../aws`). -/

def retryGo (slp : StM ε σ Unit) (block : StM ε σ α) : Nat → StM ε σ α
  | 0 => StM.tryCatch block (fun e => StM.throw e)
  | n + 1 => StM.tryCatch block (fun _e =>
      StM.bind slp (fun _ => retryGo slp block n))

def retry (slp : StM ε σ Unit) (block : StM ε σ α) : StM ε σ α :=
  retryGo slp block 3

/-! ### A generic action, for the claims about `retry` itself

A no-argument asynchronous action is characterised by the outcome of
each of its invocations (`results k` = outcome of the `k`-th call); the
state counts invocations and records the delays slept. -/

/-- Invocation counter and slept delays of a generic retried action. -/
structure ActSt where
  calls : Nat
  slept : List Nat
  deriving DecidableEq, Repr

/-- The generic action: its `k`-th invocation resolves or rejects
according to `results k`. -/
def mkAction (results : Nat → Except ε α) : StM ε ActSt α := fun s =>
  match results s.calls with
  | .ok a => .ok a ⟨s.calls + 1, s.slept⟩
  | .error e => .err e ⟨s.calls + 1, s.slept⟩

/-- `sleep(ms)` for the generic action: records the delay. -/
def actSleep (ms : Nat) : StM ε ActSt Unit := fun s => .ok () ⟨s.calls, s.slept ++ [ms]⟩

/-! ## Registry primitives

Each corresponds to one AWS SDK call in the source.  A call first
consults the fault oracle at the current call index (a network/API
error injected by the environment); absent a fault it behaves as the
service: `ResourceNotFoundException` for a missing resource, the
documented state change otherwise.  Every call is appended to the
trace. -/

/-- First record for `name` in an association list of repositories. -/
def lookupRepo : List (String × RepoRecord) → String → Option RepoRecord
  | [], _ => none
  | p :: rest, name => if p.1 == name then some p.2 else lookupRepo rest name

/-- Look a repository up by name (the registry is keyed by name;
the single domain is implicit). -/
def getRepo (w : World) (name : String) : Option RepoRecord :=
  lookupRepo w.repos name

/-- Record an outgoing call: append it to the trace and advance the
fault-oracle cursor. -/
def bump (w : World) (ev : Event) : World :=
  { w with trace := w.trace ++ [ev], callIdx := w.callIdx + 1 }

/-- One outgoing API call: trace it, consume a fault-oracle slot, then
run the service's normal behaviour. -/
def apiCall (ev : Event) (normal : World → StOutcome ErrCode World α) : M α := fun w =>
  match w.faults w.callIdx with
  | some code => .err code (bump w ev)
  | none => normal (bump w ev)

/-- `codeArtifact.describeDomain({ domain })`. -/
def describeDomainCall : M Unit :=
  apiCall .describeDomain fun w =>
    if w.hasDomain then .ok () w else .err resourceNotFound w

/-- `codeArtifact.createDomain({ domain, tags })` (the domain's own
`testing: true` tag plays no further role and is not modelled). -/
def createDomainCall : M Unit :=
  apiCall .createDomain fun w => .ok () { w with hasDomain := true }

/-- `codeArtifact.describeRepository({ domain, repository })`. -/
def describeRepositoryCall (name : String) : M Unit :=
  apiCall (.describeRepository name) fun w =>
    if (getRepo w name).isSome then .ok () w else .err resourceNotFound w

/-- `codeArtifact.createRepository({ domain, repository, description,
upstreams, tags })`: rejects with a conflict when the name is taken. -/
def createRepositoryCall (name : String) (r : RepoRecord) : M Unit :=
  apiCall (.createRepository name) fun w =>
    if (getRepo w name).isSome then .err "ConflictException" w
    else .ok () { w with repos := w.repos ++ [(name, r)] }

/-- Replace the record of `name` (first match) in the repository list. -/
def setRepo (repos : List (String × RepoRecord)) (name : String) (r : RepoRecord) :
    List (String × RepoRecord) :=
  match repos with
  | [] => []
  | p :: rest => if p.1 == name then (p.1, r) :: rest else p :: setRepo rest name r

/-- `codeArtifact.associateExternalConnection({ domain, repository,
externalConnection })`. -/
def associateExternalConnectionCall (name external : String) : M Unit :=
  apiCall (.associateExternalConnection name external) fun w =>
    match getRepo w name with
    | none => .err resourceNotFound w
    | some r =>
      let r1 : RepoRecord :=
        { r with externalConnections := r.externalConnections ++ [external] }
      .ok () { w with repos := setRepo w.repos name r1 }

/-- `codeArtifact.deleteRepository({ domain, repository })`. -/
def deleteRepositoryCall (name : String) : M Unit :=
  apiCall (.deleteRepository name) fun w =>
    if (getRepo w name).isSome then
      .ok () { w with repos := w.repos.filter (fun p => !(p.1 == name)) }
    else .err resourceNotFound w

/-- `codeArtifact.getAuthorizationToken({ domain, durationSeconds })`:
the request names only the domain, so it resolves whenever the domain
exists. -/
def getAuthorizationTokenCall : M String :=
  apiCall .getAuthorizationToken fun w =>
    if w.hasDomain then .ok "auth-token" w else .err resourceNotFound w

/-- `codeArtifact.getRepositoryEndpoint({ domain, repository, format })`. -/
def getRepositoryEndpointCall (name format : String) : M String :=
  apiCall (.getRepositoryEndpoint name format) fun w =>
    if w.hasDomain && (getRepo w name).isSome then
      .ok ("https://" ++ format ++ "." ++ name ++ ".example") w
    else .err resourceNotFound w

/-- `codeArtifact.listTagsForResource({ resourceArn })` (ARNs are in
bijection with repository names within the one domain, so the model
keys the call by name). -/
def listTagsForResourceCall (name : String) : M (List (String × String)) :=
  apiCall (.listTagsForResource name) fun w =>
    match getRepo w name with
    | none => .err resourceNotFound w
    | some r => .ok r.tags w

/-- One `codeArtifact.listRepositories({ nextToken })` page: the
grouping of names into pages is the service's, carried by `w.pages`. -/
def listRepositoriesPageCall (page : List String) : M (List String) :=
  apiCall .listRepositories fun w => .ok page w

/-- `sleep(500)` inside the registry monad: recorded in the trace. -/
def sleepM (ms : Nat) : M Unit := fun w =>
  .ok () { w with trace := w.trace ++ [.sleep ms] }

/-- Read the clock (`Date.now()`); not an API call. -/
def getNow : M Nat := fun w => .ok w.now w

/-- Read the service's pagination of `listRepositories` for the sweep:
the sequence of pages the do/while loop will receive, one
`listRepositories` call per page.  Not itself an API call. -/
def getPages : M (List (List String)) := fun w => .ok w.pages w

/-! ## The `TestRepository` methods -/

def COLLECT_BY_TAG : String := "collect-by"

/-- `24 * 3600 * 1000` — one day in milliseconds. -/
def REPO_LIFETIME_MS : Nat := 24 * 3600 * 1000

def npmUpstream : String := "npm-upstream"
def pypiUpstream : String := "pypi-upstream"
def nugetUpstream : String := "nuget-upstream"
def mavenUpstream : String := "maven-upstream"

/-- `private async domainExists()`: describe; `false` on
`ResourceNotFoundException`, any other rejection re-thrown. -/
def domainExists : M Bool :=
  StM.tryCatch (StM.bind describeDomainCall (fun _ => StM.pure true))
    (fun e => if e == resourceNotFound then StM.pure false else StM.throw e)

/-- `private async repositoryExists(name)`: same shape over
`describeRepository`. -/
def repositoryExists (name : String) : M Bool :=
  StM.tryCatch (StM.bind (describeRepositoryCall name) (fun _ => StM.pure true))
    (fun e => if e == resourceNotFound then StM.pure false else StM.throw e)

/-- `private async ensureDomain()`: `if (await this.domainExists())
return;` then create. -/
def ensureDomain : M Unit :=
  StM.bind domainExists (fun de =>
    if de then StM.pure () else createDomainCall)

/-- The `options` parameter of `ensureRepository`. -/
structure RepoOptions where
  description : Option String := none
  external : Option String := none
  upstreams : List String := []
  tags : List (String × String) := []

/-- `private async ensureRepository(name, options)`: probe, create on
absence, then — only when `options.external` is set — associate the
external connection under the `retry` policy. -/
def ensureRepository (name : String) (options : RepoOptions) : M Unit :=
  StM.bind (repositoryExists name) (fun re =>
    if re then StM.pure () else
    StM.bind
      (createRepositoryCall name
        { description := options.description
          upstreams := options.upstreams
          externalConnections := []
          tags := options.tags })
      (fun _ =>
        match options.external with
        | none => StM.pure ()
        | some externalConnection =>
          retry (sleepM 500)
            (associateExternalConnectionCall name externalConnection)))

/-- `private async ensureUpstreams()`: npm, Maven, NuGet, PyPI — in the
source's order. -/
def ensureUpstreams : M Unit :=
  StM.bind
    (ensureRepository npmUpstream
      { description := some "The upstream repository for NPM"
        external := some "public:npmjs" }) (fun _ =>
  StM.bind
    (ensureRepository mavenUpstream
      { description := some "The upstream repository for Maven"
        external := some "public:maven-central" }) (fun _ =>
  StM.bind
    (ensureRepository nugetUpstream
      { description := some "The upstream repository for NuGet"
        external := some "public:nuget-org" }) (fun _ =>
    ensureRepository pypiUpstream
      { description := some "The upstream repository for PyPI"
        external := some "public:pypi" })))

/-- `public async prepare()` for the instance named `repositoryName`:
domain, upstreams, then the sandbox repository with its description,
linked upstreams and `collect-by = Date.now() + REPO_LIFETIME_MS` tag. -/
def prepare (repositoryName : String) : M Unit :=
  StM.bind ensureDomain (fun _ =>
  StM.bind ensureUpstreams (fun _ =>
  StM.bind getNow (fun now =>
    ensureRepository repositoryName
      { description := some "Testing repository"
        upstreams := [npmUpstream, pypiUpstream, nugetUpstream, mavenUpstream]
        tags := [(COLLECT_BY_TAG, toString (now + REPO_LIFETIME_MS))] })))

/-- The bundle `loginInformation()` returns. -/
structure LoginInformation where
  authToken : String
  repositoryName : String
  npmEndpoint : String
  mavenEndpoint : String
  nugetEndpoint : String
  pypiEndpoint : String
  deriving DecidableEq, Repr

/-- `public async loginInformation()`: the object literal's fields are
awaited in source order — token, then npm, maven, nuget, pypi
endpoints. -/
def loginInformation (repositoryName : String) : M LoginInformation :=
  StM.bind getAuthorizationTokenCall (fun authToken =>
  StM.bind (getRepositoryEndpointCall repositoryName "npm") (fun npmEndpoint =>
  StM.bind (getRepositoryEndpointCall repositoryName "maven") (fun mavenEndpoint =>
  StM.bind (getRepositoryEndpointCall repositoryName "nuget") (fun nugetEndpoint =>
  StM.bind (getRepositoryEndpointCall repositoryName "pypi") (fun pypiEndpoint =>
    StM.pure
      { authToken := authToken
        repositoryName := repositoryName
        npmEndpoint := npmEndpoint
        mavenEndpoint := mavenEndpoint
        nugetEndpoint := nugetEndpoint
        pypiEndpoint := pypiEndpoint })))))

/-- `public async delete()`: delete, absorbing
`ResourceNotFoundException`, re-throwing anything else. -/
def delete (repositoryName : String) : M Unit :=
  StM.tryCatch (deleteRepositoryCall repositoryName)
    (fun e => if e == resourceNotFound then StM.pure () else StM.throw e)

/-! ### `Number(t.value) < Date.now()` — the sweep's tag predicate -/

/-- Value of a list of decimal digits. -/
def decDigits (l : List Char) : Nat :=
  l.foldl (fun acc c => acc * 10 + (c.toNat - 48)) 0

/-- Strip leading and trailing whitespace (JS `Number` ignores it). -/
def trimChars (l : List Char) : List Char :=
  ((l.dropWhile Char.isWhitespace).reverse.dropWhile Char.isWhitespace).reverse

/-- Model of the JavaScript `Number(string)` conversion on the string
grammar this system can meet (optional sign, decimal digits, optional
fractional part; a trimmed-empty string is `0`), returning the floor of
the value, or `none` for NaN.  The floor is enough because the only
consumer compares against an integral `Date.now()`, and `x < n ↔ ⌊x⌋ < n`
for integral `n`.  Exponent/hex/`Infinity` forms — which this system
never writes as tag values — also read as NaN here. -/
def jsNumber (s : String) : Option Int :=
  let t := trimChars s.toList
  if t.isEmpty then some 0 else
  let su : Bool × List Char :=
    match t with
    | '-' :: r => (true, r)
    | '+' :: r => (false, r)
    | r => (false, r)
  let neg := su.1
  let ip := su.2.takeWhile Char.isDigit
  let rest := su.2.dropWhile Char.isDigit
  match rest with
  | [] =>
    if ip.isEmpty then none
    else some (if neg then -(decDigits ip : Int) else (decDigits ip : Int))
  | '.' :: fr =>
    if fr.all Char.isDigit && (!ip.isEmpty || !fr.isEmpty) then
      let i : Int := (decDigits ip : Int)
      let fracZero := fr.all (· == '0')
      some (if neg then (if fracZero then -i else -i - 1) else i)
    else none
  | _ => none

/-- `Number(v) < now`: `false` when `Number(v)` is NaN (every comparison
with NaN is `false` in JS). -/
def jsLtNat (v : String) (now : Nat) : Bool :=
  match jsNumber v with
  | none => false
  | some i => i < (now : Int)

/-- The sweep's tag predicate, as in
`t.key === COLLECT_BY_TAG && Number(t.value) < Date.now()`. -/
def collectTagMatch (now : Nat) (t : String × String) : Bool :=
  t.1 == COLLECT_BY_TAG && jsLtNat t.2 now

/-- The per-repository body of the sweep's `for` loop, over the names
of one page: read tags, and when a `collect-by` tag is past due, call
`deleteRepository` — bare, with no surrounding `try`. -/
def processRepos : List String → M Unit
  | [] => StM.pure ()
  | name :: rest =>
    StM.bind (listTagsForResourceCall name) (fun tags =>
    StM.bind getNow (fun now =>
    StM.bind
      (if (tags.find? (collectTagMatch now)).isSome
        then deleteRepositoryCall name
        else StM.pure ())
      (fun _ => processRepos rest)))

/-- The sweep's do/while pagination: one `listRepositories` call per
page the service hands back. -/
def gcPages : List (List String) → M Unit
  | [] => StM.pure ()
  | page :: rest =>
    StM.bind (listRepositoriesPageCall page) (fun names =>
    StM.bind (processRepos names) (fun _ =>
      gcPages rest))

/-- `public static async gc()`: no-op when the domain is absent, else
page through all repositories, deleting the collectable ones. -/
def gc : M Unit :=
  StM.bind domainExists (fun de =>
    if !de then StM.pure () else
    StM.bind getPages (fun pages => gcPages pages))

/-! ## Run lemmas for the monad -/

theorem run_bind (x : StM ε σ α) (f : α → StM ε σ β) (s : σ) :
    (x >>= f) s =
      match x s with
      | .ok a s1 => f a s1
      | .err e s1 => .err e s1 := rfl

theorem run_pure (a : α) (s : σ) : (pure a : StM ε σ α) s = .ok a s := rfl

theorem bind_ok {x : StM ε σ α} {f : α → StM ε σ β} {s s1 : σ} {a : α}
    (h : x s = .ok a s1) : (x >>= f) s = f a s1 := by
  show StM.bind x f s = _
  unfold StM.bind
  rw [h]

theorem bind_err {x : StM ε σ α} {f : α → StM ε σ β} {s s1 : σ} {e : ε}
    (h : x s = .err e s1) : (x >>= f) s = .err e s1 := by
  show StM.bind x f s = _
  unfold StM.bind
  rw [h]

theorem tryCatch_ok {x : StM ε σ α} {handle : ε → StM ε σ α} {s s1 : σ} {a : α}
    (h : x s = .ok a s1) : StM.tryCatch x handle s = .ok a s1 := by
  unfold StM.tryCatch
  rw [h]

theorem tryCatch_err {x : StM ε σ α} {handle : ε → StM ε σ α} {s s1 : σ} {e : ε}
    (h : x s = .err e s1) : StM.tryCatch x handle s = handle e s1 := by
  unfold StM.tryCatch
  rw [h]

theorem sbind_ok {x : StM ε σ α} {f : α → StM ε σ β} {s s1 : σ} {a : α}
    (h : x s = .ok a s1) : StM.bind x f s = f a s1 := by
  unfold StM.bind
  rw [h]

theorem sbind_err {x : StM ε σ α} {f : α → StM ε σ β} {s s1 : σ} {e : ε}
    (h : x s = .err e s1) : StM.bind x f s = .err e s1 := by
  unfold StM.bind
  rw [h]

/-! ## Step lemmas for the registry primitives -/

theorem bump_repos (w : World) (ev : Event) : (bump w ev).repos = w.repos := rfl
theorem bump_hasDomain (w : World) (ev : Event) : (bump w ev).hasDomain = w.hasDomain := rfl
theorem bump_faults (w : World) (ev : Event) : (bump w ev).faults = w.faults := rfl
theorem bump_now (w : World) (ev : Event) : (bump w ev).now = w.now := rfl
theorem bump_pages (w : World) (ev : Event) : (bump w ev).pages = w.pages := rfl
theorem bump_callIdx (w : World) (ev : Event) : (bump w ev).callIdx = w.callIdx + 1 := rfl
theorem bump_trace (w : World) (ev : Event) : (bump w ev).trace = w.trace ++ [ev] := rfl

theorem apiCall_fault {α : Type} {w : World} {c : ErrCode} {ev : Event}
    {normal : World → StOutcome ErrCode World α}
    (hf : w.faults w.callIdx = some c) :
    apiCall ev normal w = .err c (bump w ev) := by
  unfold apiCall
  rw [hf]

theorem apiCall_clear {α : Type} {w : World} {ev : Event}
    {normal : World → StOutcome ErrCode World α}
    (hf : w.faults w.callIdx = none) :
    apiCall ev normal w = normal (bump w ev) := by
  unfold apiCall
  rw [hf]

theorem describeRepository_absent {w : World} {name : String}
    (hf : w.faults w.callIdx = none) (hg : getRepo w name = none) :
    describeRepositoryCall name w
      = .err resourceNotFound (bump w (.describeRepository name)) := by
  unfold describeRepositoryCall
  rw [apiCall_clear hf]
  have hb : getRepo (bump w (.describeRepository name)) name = none := hg
  simp [hb]

theorem describeRepository_present {w : World} {name : String} {r : RepoRecord}
    (hf : w.faults w.callIdx = none) (hg : getRepo w name = some r) :
    describeRepositoryCall name w = .ok () (bump w (.describeRepository name)) := by
  unfold describeRepositoryCall
  rw [apiCall_clear hf]
  have hb : getRepo (bump w (.describeRepository name)) name = some r := hg
  simp [hb]

theorem repositoryExists_false {w : World} {name : String}
    (hf : w.faults w.callIdx = none) (hg : getRepo w name = none) :
    repositoryExists name w = .ok false (bump w (.describeRepository name)) := by
  unfold repositoryExists
  rw [tryCatch_err (sbind_err (describeRepository_absent hf hg))]
  simp [StM.pure]

theorem repositoryExists_true {w : World} {name : String} {r : RepoRecord}
    (hf : w.faults w.callIdx = none) (hg : getRepo w name = some r) :
    repositoryExists name w = .ok true (bump w (.describeRepository name)) := by
  unfold repositoryExists
  have hin : StM.bind (describeRepositoryCall name) (fun _ => StM.pure true) w
      = .ok true (bump w (.describeRepository name)) := by
    rw [sbind_ok (describeRepository_present hf hg)]
    rfl
  rw [tryCatch_ok hin]

theorem domainExists_false {w : World}
    (hf : w.faults w.callIdx = none) (hd : w.hasDomain = false) :
    domainExists w = .ok false (bump w .describeDomain) := by
  unfold domainExists
  have hdesc : describeDomainCall w = .err resourceNotFound (bump w .describeDomain) := by
    unfold describeDomainCall
    rw [apiCall_clear hf]
    have hb : (bump w .describeDomain).hasDomain = false := hd
    simp [hb]
  rw [tryCatch_err (sbind_err hdesc)]
  simp [StM.pure]

theorem domainExists_true {w : World}
    (hf : w.faults w.callIdx = none) (hd : w.hasDomain = true) :
    domainExists w = .ok true (bump w .describeDomain) := by
  unfold domainExists
  have hdesc : describeDomainCall w = .ok () (bump w .describeDomain) := by
    unfold describeDomainCall
    rw [apiCall_clear hf]
    have hb : (bump w .describeDomain).hasDomain = true := hd
    simp [hb]
  have hin : StM.bind describeDomainCall (fun _ => StM.pure true) w
      = .ok true (bump w .describeDomain) := by
    rw [sbind_ok hdesc]
    rfl
  rw [tryCatch_ok hin]

theorem createRepository_new {w : World} {name : String} {r : RepoRecord}
    (hf : w.faults w.callIdx = none) (hg : getRepo w name = none) :
    createRepositoryCall name r w
      = .ok () { bump w (.createRepository name) with repos := w.repos ++ [(name, r)] } := by
  unfold createRepositoryCall
  rw [apiCall_clear hf]
  have hb : getRepo (bump w (.createRepository name)) name = none := hg
  simp [hb]
  rfl

theorem associate_present {w : World} {name ext : String} {r : RepoRecord}
    (hf : w.faults w.callIdx = none) (hg : getRepo w name = some r) :
    associateExternalConnectionCall name ext w
      = .ok () { bump w (.associateExternalConnection name ext) with
          repos := setRepo w.repos name
            ({ r with externalConnections := r.externalConnections ++ [ext] }) } := by
  unfold associateExternalConnectionCall
  rw [apiCall_clear hf]
  have hb : getRepo (bump w (.associateExternalConnection name ext)) name = some r := hg
  simp [hb]
  rfl

theorem deleteRepository_present {w : World} {name : String} {r : RepoRecord}
    (hf : w.faults w.callIdx = none) (hg : getRepo w name = some r) :
    deleteRepositoryCall name w
      = .ok () { bump w (.deleteRepository name) with
          repos := w.repos.filter (fun p => !(p.1 == name)) } := by
  unfold deleteRepositoryCall
  rw [apiCall_clear hf]
  have hb : getRepo (bump w (.deleteRepository name)) name = some r := hg
  simp [hb]
  rfl

theorem deleteRepository_absent {w : World} {name : String}
    (hf : w.faults w.callIdx = none) (hg : getRepo w name = none) :
    deleteRepositoryCall name w
      = .err resourceNotFound (bump w (.deleteRepository name)) := by
  unfold deleteRepositoryCall
  rw [apiCall_clear hf]
  have hb : getRepo (bump w (.deleteRepository name)) name = none := hg
  simp [hb]

theorem listTags_present {w : World} {name : String} {r : RepoRecord}
    (hf : w.faults w.callIdx = none) (hg : getRepo w name = some r) :
    listTagsForResourceCall name w = .ok r.tags (bump w (.listTagsForResource name)) := by
  unfold listTagsForResourceCall
  rw [apiCall_clear hf]
  have hb : getRepo (bump w (.listTagsForResource name)) name = some r := hg
  simp [hb]

theorem listRepositoriesPage_run {w : World} {page : List String}
    (hf : w.faults w.callIdx = none) :
    listRepositoriesPageCall page w = .ok page (bump w .listRepositories) := by
  unfold listRepositoriesPageCall
  rw [apiCall_clear hf]

/-! ## Distinguished worlds and run lemmas for provisioning -/

/-- A fresh account: no domain, no repositories, no injected faults. -/
def initWorld (now : Nat) : World :=
  { hasDomain := false
    repos := []
    pages := []
    now := now
    faults := fun _ => none
    callIdx := 0
    trace := [] }

/-- After `ensureDomain` from `initWorld`. -/
def domainWorld (now : Nat) : World :=
  { hasDomain := true
    repos := []
    pages := []
    now := now
    faults := fun _ => none
    callIdx := 2
    trace := [.describeDomain, .createDomain] }

def npmRec : RepoRecord :=
  { description := some "The upstream repository for NPM"
    upstreams := []
    externalConnections := ["public:npmjs"]
    tags := [] }

def mavenRec : RepoRecord :=
  { description := some "The upstream repository for Maven"
    upstreams := []
    externalConnections := ["public:maven-central"]
    tags := [] }

def nugetRec : RepoRecord :=
  { description := some "The upstream repository for NuGet"
    upstreams := []
    externalConnections := ["public:nuget-org"]
    tags := [] }

def pypiRec : RepoRecord :=
  { description := some "The upstream repository for PyPI"
    upstreams := []
    externalConnections := ["public:pypi"]
    tags := [] }

/-- The four shared upstream repositories, fully provisioned. -/
def upstreamRepos : List (String × RepoRecord) :=
  [(npmUpstream, npmRec), (mavenUpstream, mavenRec),
   (nugetUpstream, nugetRec), (pypiUpstream, pypiRec)]

/-- The calls `ensureDomain` and `ensureUpstreams` make from a fresh
account, in order. -/
def setupTrace : List Event :=
  [.describeDomain, .createDomain,
   .describeRepository npmUpstream, .createRepository npmUpstream,
   .associateExternalConnection npmUpstream "public:npmjs",
   .describeRepository mavenUpstream, .createRepository mavenUpstream,
   .associateExternalConnection mavenUpstream "public:maven-central",
   .describeRepository nugetUpstream, .createRepository nugetUpstream,
   .associateExternalConnection nugetUpstream "public:nuget-org",
   .describeRepository pypiUpstream, .createRepository pypiUpstream,
   .associateExternalConnection pypiUpstream "public:pypi"]

/-- After `ensureDomain` and `ensureUpstreams` from `initWorld`. -/
def setupWorld (now : Nat) : World :=
  { hasDomain := true
    repos := upstreamRepos
    pages := []
    now := now
    faults := fun _ => none
    callIdx := 14
    trace := setupTrace }

/-- The record `prepare` creates for the sandbox repository. -/
def sandboxRec (now : Nat) : RepoRecord :=
  { description := some "Testing repository"
    upstreams := [npmUpstream, pypiUpstream, nugetUpstream, mavenUpstream]
    externalConnections := []
    tags := [(COLLECT_BY_TAG, toString (now + REPO_LIFETIME_MS))] }

/-- After a full `prepare` of sandbox `name` from `initWorld`. -/
def preparedWorld (name : String) (now : Nat) : World :=
  { hasDomain := true
    repos := upstreamRepos ++ [(name, sandboxRec now)]
    pages := []
    now := now
    faults := fun _ => none
    callIdx := 16
    trace := setupTrace ++ [.describeRepository name, .createRepository name] }

theorem ensureDomain_init (now : Nat) :
    ensureDomain (initWorld now) = .ok () (domainWorld now) := rfl

set_option maxHeartbeats 2000000 in
theorem ensureUpstreams_domain (now : Nat) :
    ensureUpstreams (domainWorld now) = .ok () (setupWorld now) := rfl

theorem lookup_upstreams_none {name : String}
    (h1 : name ≠ npmUpstream) (h2 : name ≠ mavenUpstream)
    (h3 : name ≠ nugetUpstream) (h4 : name ≠ pypiUpstream) :
    lookupRepo upstreamRepos name = none := by
  have e1 : (npmUpstream == name) = false := beq_eq_false_iff_ne.mpr (Ne.symm h1)
  have e2 : (mavenUpstream == name) = false := beq_eq_false_iff_ne.mpr (Ne.symm h2)
  have e3 : (nugetUpstream == name) = false := beq_eq_false_iff_ne.mpr (Ne.symm h3)
  have e4 : (pypiUpstream == name) = false := beq_eq_false_iff_ne.mpr (Ne.symm h4)
  simp [lookupRepo, upstreamRepos, e1, e2, e3, e4]

theorem lookup_prepared {name : String} (now : Nat)
    (h1 : name ≠ npmUpstream) (h2 : name ≠ mavenUpstream)
    (h3 : name ≠ nugetUpstream) (h4 : name ≠ pypiUpstream) :
    lookupRepo (upstreamRepos ++ [(name, sandboxRec now)]) name
      = some (sandboxRec now) := by
  have e1 : (npmUpstream == name) = false := beq_eq_false_iff_ne.mpr (Ne.symm h1)
  have e2 : (mavenUpstream == name) = false := beq_eq_false_iff_ne.mpr (Ne.symm h2)
  have e3 : (nugetUpstream == name) = false := beq_eq_false_iff_ne.mpr (Ne.symm h3)
  have e4 : (pypiUpstream == name) = false := beq_eq_false_iff_ne.mpr (Ne.symm h4)
  simp [lookupRepo, upstreamRepos, e1, e2, e3, e4]

/-- `ensureRepository` for a fresh name with no external connection
(the sandbox path): probe misses, create, done. -/
theorem ensureRepository_fresh {w : World} {name : String} (opts : RepoOptions)
    (hx : opts.external = none)
    (hf : ∀ k, w.faults k = none)
    (hg : getRepo w name = none) :
    ensureRepository name opts w
      = .ok () { bump (bump w (.describeRepository name)) (.createRepository name) with
          repos := w.repos ++ [(name, ⟨opts.description, opts.upstreams, [], opts.tags⟩)] } := by
  unfold ensureRepository
  rw [sbind_ok (repositoryExists_false (hf _) hg)]
  have hg1 : getRepo (bump w (.describeRepository name)) name = none := hg
  have hf1 : (bump w (.describeRepository name)).faults
      (bump w (.describeRepository name)).callIdx = none := hf _
  simp only [Bool.false_eq_true, if_false]
  rw [sbind_ok (createRepository_new hf1 hg1)]
  rw [hx]
  rfl

/-- `ensureRepository` when the repository already exists: the probe
returns `true` and everything else is skipped. -/
theorem ensureRepository_skip {w : World} {name : String} {r : RepoRecord}
    (opts : RepoOptions)
    (hf : w.faults w.callIdx = none)
    (hg : getRepo w name = some r) :
    ensureRepository name opts w = .ok () (bump w (.describeRepository name)) := by
  unfold ensureRepository
  rw [sbind_ok (repositoryExists_true hf hg)]
  rfl

/-- `ensureDomain` when the domain already exists. -/
theorem ensureDomain_ok {w : World}
    (hf : w.faults w.callIdx = none) (hd : w.hasDomain = true) :
    ensureDomain w = .ok () (bump w .describeDomain) := by
  unfold ensureDomain
  rw [sbind_ok (domainExists_true hf hd)]
  rfl

/-- The full first `prepare` from a fresh account: succeeds and leaves
`preparedWorld`. -/
theorem prepare_init_run (name : String) (now : Nat)
    (h1 : name ≠ npmUpstream) (h2 : name ≠ mavenUpstream)
    (h3 : name ≠ nugetUpstream) (h4 : name ≠ pypiUpstream) :
    prepare name (initWorld now) = .ok () (preparedWorld name now) := by
  unfold prepare
  rw [sbind_ok (ensureDomain_init now)]
  rw [sbind_ok (ensureUpstreams_domain now)]
  rw [sbind_ok (show getNow (setupWorld now) = .ok now (setupWorld now) from rfl)]
  have hg : getRepo (setupWorld now) name = none :=
    lookup_upstreams_none h1 h2 h3 h4
  rw [ensureRepository_fresh _ rfl (fun _ => rfl) hg]
  rfl

/-- `ensureUpstreams` when all four upstreams already exist: four
probes, nothing else. -/
theorem ensureUpstreams_skip {w : World} {rn rm rg rp : RepoRecord}
    (hf : ∀ k, w.faults k = none)
    (hn : getRepo w npmUpstream = some rn)
    (hm : getRepo w mavenUpstream = some rm)
    (hg : getRepo w nugetUpstream = some rg)
    (hp : getRepo w pypiUpstream = some rp) :
    ensureUpstreams w
      = .ok () (bump (bump (bump (bump w (.describeRepository npmUpstream))
          (.describeRepository mavenUpstream)) (.describeRepository nugetUpstream))
          (.describeRepository pypiUpstream)) := by
  unfold ensureUpstreams
  rw [sbind_ok (ensureRepository_skip _ (hf _) hn)]
  have hm1 : getRepo (bump w (.describeRepository npmUpstream)) mavenUpstream
      = some rm := hm
  have hfm : (bump w (.describeRepository npmUpstream)).faults
      (bump w (.describeRepository npmUpstream)).callIdx = none := hf _
  rw [sbind_ok (ensureRepository_skip _ hfm hm1)]
  have hg1 : getRepo (bump (bump w (.describeRepository npmUpstream))
      (.describeRepository mavenUpstream)) nugetUpstream = some rg := hg
  have hfg : (bump (bump w (.describeRepository npmUpstream))
        (.describeRepository mavenUpstream)).faults
      (bump (bump w (.describeRepository npmUpstream))
        (.describeRepository mavenUpstream)).callIdx = none := hf _
  rw [sbind_ok (ensureRepository_skip _ hfg hg1)]
  have hp1 : getRepo (bump (bump (bump w (.describeRepository npmUpstream))
      (.describeRepository mavenUpstream)) (.describeRepository nugetUpstream))
      pypiUpstream = some rp := hp
  have hfp : (bump (bump (bump w (.describeRepository npmUpstream))
        (.describeRepository mavenUpstream)) (.describeRepository nugetUpstream)).faults
      (bump (bump (bump w (.describeRepository npmUpstream))
        (.describeRepository mavenUpstream)) (.describeRepository nugetUpstream)).callIdx
      = none := hf _
  rw [ensureRepository_skip _ hfp hp1]

/-- `getNow` leaves the world unchanged. -/
theorem getNow_run (w : World) : getNow w = .ok w.now w := rfl

/-- After a second `prepare` of the same sandbox from `preparedWorld`:
nothing changes except six more probe calls in the trace. -/
def preparedTwiceWorld (name : String) (now : Nat) : World :=
  { hasDomain := true
    repos := upstreamRepos ++ [(name, sandboxRec now)]
    pages := []
    now := now
    faults := fun _ => none
    callIdx := 22
    trace := setupTrace ++ [.describeRepository name, .createRepository name]
      ++ [.describeDomain,
          .describeRepository npmUpstream, .describeRepository mavenUpstream,
          .describeRepository nugetUpstream, .describeRepository pypiUpstream,
          .describeRepository name] }

/-- A second `prepare` of the same name: every probe hits, nothing is
created, the run succeeds. -/
theorem prepare_again_run (name : String) (now : Nat)
    (h1 : name ≠ npmUpstream) (h2 : name ≠ mavenUpstream)
    (h3 : name ≠ nugetUpstream) (h4 : name ≠ pypiUpstream) :
    prepare name (preparedWorld name now) = .ok () (preparedTwiceWorld name now) := by
  unfold prepare
  rw [sbind_ok (ensureDomain_ok (w := preparedWorld name now) rfl rfl)]
  have hn : getRepo (bump (preparedWorld name now) .describeDomain) npmUpstream
      = some npmRec := rfl
  have hm : getRepo (bump (preparedWorld name now) .describeDomain) mavenUpstream
      = some mavenRec := rfl
  have hg : getRepo (bump (preparedWorld name now) .describeDomain) nugetUpstream
      = some nugetRec := rfl
  have hp : getRepo (bump (preparedWorld name now) .describeDomain) pypiUpstream
      = some pypiRec := rfl
  rw [sbind_ok (ensureUpstreams_skip (fun _ => rfl) hn hm hg hp)]
  rw [sbind_ok (getNow_run _)]
  have hlook : getRepo (bump (bump (bump (bump (bump (preparedWorld name now)
      .describeDomain) (.describeRepository npmUpstream))
      (.describeRepository mavenUpstream)) (.describeRepository nugetUpstream))
      (.describeRepository pypiUpstream)) name = some (sandboxRec now) :=
    lookup_prepared now h1 h2 h3 h4
  rw [ensureRepository_skip _ rfl hlook]
  rfl

/-- Deleting `name` removes every entry for it: the filtered list has
no record for `name` any more. -/
theorem lookupRepo_filter_self (l : List (String × RepoRecord)) (name : String) :
    lookupRepo (l.filter (fun p => !(p.1 == name))) name = none := by
  induction l with
  | nil => rfl
  | cons p rest ih =>
    by_cases h : (p.1 == name) = true
    · simp [List.filter, h, ih]
    · simp only [List.filter, h, Bool.not_false]
      simp [lookupRepo, h, ih]

/-- `delete()` on an absent repository: the not-found rejection is
absorbed and the call succeeds. -/
theorem delete_absent_ok {w : World} {name : String}
    (hf : w.faults w.callIdx = none) (hg : getRepo w name = none) :
    delete name w = .ok () (bump w (.deleteRepository name)) := by
  unfold delete
  rw [tryCatch_err (deleteRepository_absent hf hg)]
  simp [StM.pure]

/-- `delete()` on a present repository: the repository is removed. -/
theorem delete_present_ok {w : World} {name : String} {r : RepoRecord}
    (hf : w.faults w.callIdx = none) (hg : getRepo w name = some r) :
    delete name w
      = .ok () { bump w (.deleteRepository name) with
          repos := w.repos.filter (fun p => !(p.1 == name)) } := by
  unfold delete
  rw [tryCatch_ok (deleteRepository_present hf hg)]

/-! ## Fault-injection worlds -/

/-- A fresh account whose `k`-th outgoing call fails with `code`. -/
def faultAt (k : Nat) (code : ErrCode) (now : Nat) : World :=
  { initWorld now with faults := fun i => if i = k then some code else none }

/-- A fresh account where every call from the `k`-th on fails with
`code`. -/
def faultFrom (k : Nat) (code : ErrCode) (now : Nat) : World :=
  { initWorld now with faults := fun i => if k ≤ i then some code else none }

/-- The npm upstream's record right after `createRepository`, before any
external connection was associated. -/
def npmRecBare : RepoRecord :=
  { description := some "The upstream repository for NPM"
    upstreams := []
    externalConnections := []
    tags := [] }

/-- Calls of a `prepare` run whose npm external-connection association
fails on all four attempts. -/
def assocFailTrace : List Event :=
  [.describeDomain, .createDomain,
   .describeRepository npmUpstream, .createRepository npmUpstream,
   .associateExternalConnection npmUpstream "public:npmjs", .sleep 500,
   .associateExternalConnection npmUpstream "public:npmjs", .sleep 500,
   .associateExternalConnection npmUpstream "public:npmjs", .sleep 500,
   .associateExternalConnection npmUpstream "public:npmjs"]

/-! ## Claim theorems -/

/-- **C3.** The retry helper: for every no-argument asynchronous action
(characterised by the outcome `results k` of its `k`-th invocation): if
the action fails twice then succeeds, `retry` returns the success value
having invoked the action exactly 3 times (two 500 ms delays in
between); if the action always fails, `retry` invokes it exactly 4
times, sleeping 500 ms between consecutive attempts (3 delays), and
raises the failure of the last (4th) attempt. -/
theorem retry_attempt_counts {ε α : Type} (results : Nat → Except ε α) :
    (∀ e0 e1 v, results 0 = .error e0 → results 1 = .error e1 → results 2 = .ok v →
      retry (actSleep 500) (mkAction results) ⟨0, []⟩ = .ok v ⟨3, [500, 500]⟩)
    ∧ (∀ errs : Nat → ε, (∀ k, results k = .error (errs k)) →
      retry (actSleep 500) (mkAction results) ⟨0, []⟩
        = .err (errs 3) ⟨4, [500, 500, 500]⟩) := by
  constructor
  · intro e0 e1 v h0 h1 h2
    simp only [retry, retryGo, StM.tryCatch, StM.bind, mkAction, actSleep, h0, h1, h2]
    rfl
  · intro errs hall
    simp only [retry, retryGo, StM.tryCatch, StM.bind, StM.throw, mkAction, actSleep,
      hall 0, hall 1, hall 2, hall 3]
    rfl

/-- Concrete action for the witness: fails twice, then succeeds. -/
def failTwiceAction : Nat → Except String Nat :=
  fun k => if k < 2 then .error ("e" ++ toString k) else .ok 42

/-- Concrete action for the witness: always fails. -/
def alwaysFailAction : Nat → Except String Nat :=
  fun k => .error ("e" ++ toString k)

theorem retry_attempt_counts_witness :
    retry (actSleep 500) (mkAction failTwiceAction) ⟨0, []⟩ = .ok 42 ⟨3, [500, 500]⟩
    ∧ retry (actSleep 500) (mkAction alwaysFailAction) ⟨0, []⟩
        = .err ("e" ++ toString 3) ⟨4, [500, 500, 500]⟩ :=
  ⟨(retry_attempt_counts failTwiceAction).1 ("e" ++ toString 0) ("e" ++ toString 1) 42
      rfl rfl rfl,
   (retry_attempt_counts alwaysFailAction).2 (fun k => "e" ++ toString k) (fun _ => rfl)⟩

/-- **C4.** From a fresh account, `prepare` performs in order: ensure
the domain (describe, then create on not-found), ensure each of the
four upstream repositories (describe, then create and associate the
external connection on not-found), then create the sandbox repository
with its description, the four upstream names as linked upstreams, and
a `collect-by` tag valued `Date.now() + 24h` in epoch milliseconds. -/
theorem prepare_provisioning_sequence (name : String) (now : Nat)
    (h1 : name ≠ npmUpstream) (h2 : name ≠ mavenUpstream)
    (h3 : name ≠ nugetUpstream) (h4 : name ≠ pypiUpstream) :
    ∃ w1 : World,
      prepare name (initWorld now) = .ok () w1
      ∧ w1.trace = [.describeDomain, .createDomain,
          .describeRepository npmUpstream, .createRepository npmUpstream,
          .associateExternalConnection npmUpstream "public:npmjs",
          .describeRepository mavenUpstream, .createRepository mavenUpstream,
          .associateExternalConnection mavenUpstream "public:maven-central",
          .describeRepository nugetUpstream, .createRepository nugetUpstream,
          .associateExternalConnection nugetUpstream "public:nuget-org",
          .describeRepository pypiUpstream, .createRepository pypiUpstream,
          .associateExternalConnection pypiUpstream "public:pypi",
          .describeRepository name, .createRepository name]
      ∧ getRepo w1 name = some
          { description := some "Testing repository"
            upstreams := [npmUpstream, pypiUpstream, nugetUpstream, mavenUpstream]
            externalConnections := []
            tags := [(COLLECT_BY_TAG, toString (now + 24 * 3600 * 1000))] } := by
  refine ⟨preparedWorld name now, prepare_init_run name now h1 h2 h3 h4, rfl, ?_⟩
  exact lookup_prepared now h1 h2 h3 h4

theorem prepare_provisioning_sequence_witness :
    ∃ w1 : World,
      prepare "test-sandbox" (initWorld 1700000000000) = .ok () w1
      ∧ w1.trace = [.describeDomain, .createDomain,
          .describeRepository npmUpstream, .createRepository npmUpstream,
          .associateExternalConnection npmUpstream "public:npmjs",
          .describeRepository mavenUpstream, .createRepository mavenUpstream,
          .associateExternalConnection mavenUpstream "public:maven-central",
          .describeRepository nugetUpstream, .createRepository nugetUpstream,
          .associateExternalConnection nugetUpstream "public:nuget-org",
          .describeRepository pypiUpstream, .createRepository pypiUpstream,
          .associateExternalConnection pypiUpstream "public:pypi",
          .describeRepository "test-sandbox", .createRepository "test-sandbox"]
      ∧ getRepo w1 "test-sandbox" = some
          { description := some "Testing repository"
            upstreams := [npmUpstream, pypiUpstream, nugetUpstream, mavenUpstream]
            externalConnections := []
            tags := [(COLLECT_BY_TAG, toString (1700000000000 + 24 * 3600 * 1000))] } :=
  prepare_provisioning_sequence "test-sandbox" 1700000000000
    (by decide) (by decide) (by decide) (by decide)

/-- **C2.** Calling `prepare` twice in sequence on the same sandbox
name: both calls succeed (no duplicate-creation error surfaces), the
combined trace holds exactly one `createRepository` call for that name,
and the second run consists of existence probes only — its probe for
the sandbox hits and the create is skipped. -/
theorem prepare_twice_single_create (name : String) (now : Nat)
    (h1 : name ≠ npmUpstream) (h2 : name ≠ mavenUpstream)
    (h3 : name ≠ nugetUpstream) (h4 : name ≠ pypiUpstream) :
    ∃ w1 w2 : World,
      prepare name (initWorld now) = .ok () w1
      ∧ prepare name w1 = .ok () w2
      ∧ w1.trace.count (.createRepository name) = 1
      ∧ w2.trace = w1.trace ++ [.describeDomain,
          .describeRepository npmUpstream, .describeRepository mavenUpstream,
          .describeRepository nugetUpstream, .describeRepository pypiUpstream,
          .describeRepository name]
      ∧ w2.trace.count (.createRepository name) = 1 := by
  have e1 : "npm-upstream" ≠ name := Ne.symm h1
  have e2 : "maven-upstream" ≠ name := Ne.symm h2
  have e3 : "nuget-upstream" ≠ name := Ne.symm h3
  have e4 : "pypi-upstream" ≠ name := Ne.symm h4
  refine ⟨preparedWorld name now, preparedTwiceWorld name now,
    prepare_init_run name now h1 h2 h3 h4,
    prepare_again_run name now h1 h2 h3 h4, ?_, rfl, ?_⟩
  · simp [preparedWorld, setupTrace, List.count_append, List.count_cons,
      npmUpstream, mavenUpstream, nugetUpstream, pypiUpstream, e1, e2, e3, e4]
  · simp [preparedTwiceWorld, setupTrace, List.count_append, List.count_cons,
      npmUpstream, mavenUpstream, nugetUpstream, pypiUpstream, e1, e2, e3, e4]

/-- **C5.** `delete()` treats a not-found rejection from the registry
as success and re-raises any other rejection; consequently `delete()`
followed immediately by `delete()` on the same sandbox succeeds both
times. -/
theorem delete_notfound_ok_and_idempotent (w : World) (name : String) :
    ((∀ k, w.faults k = none) → getRepo w name = none →
      delete name w = .ok () (bump w (.deleteRepository name)))
    ∧ (∀ code, w.faults w.callIdx = some code → code ≠ resourceNotFound →
      delete name w = .err code (bump w (.deleteRepository name)))
    ∧ ((∀ k, w.faults k = none) →
      ∃ w1 w2 : World, delete name w = .ok () w1 ∧ delete name w1 = .ok () w2) := by
  refine ⟨fun hf hg => delete_absent_ok (hf _) hg, ?_, ?_⟩
  · intro code hc hne
    unfold delete
    have hdel : deleteRepositoryCall name w = .err code (bump w (.deleteRepository name)) := by
      unfold deleteRepositoryCall
      exact apiCall_fault hc
    rw [tryCatch_err hdel]
    have hb : (code == resourceNotFound) = false := beq_eq_false_iff_ne.mpr hne
    simp [hb, StM.throw]
  · intro hf
    match hgw : getRepo w name with
    | none =>
      refine ⟨bump w (.deleteRepository name),
        bump (bump w (.deleteRepository name)) (.deleteRepository name),
        delete_absent_ok (hf _) hgw, delete_absent_ok (hf _) hgw⟩
    | some r =>
      refine ⟨_, _, delete_present_ok (hf _) hgw, delete_absent_ok (hf _) ?_⟩
      exact lookupRepo_filter_self w.repos name

/-- Concrete world for the `delete` witness: one repository `"r"`. -/
def delWorld : World :=
  { hasDomain := true
    repos := [("r", {})]
    pages := []
    now := 0
    faults := fun _ => none
    callIdx := 0
    trace := [] }

/-- `delWorld` with an injected non-not-found fault on every call. -/
def delFaultWorld : World :=
  { delWorld with faults := fun _ => some "InternalServerError" }

theorem delete_notfound_ok_and_idempotent_witness :
    (delete "x" delWorld = .ok () (bump delWorld (.deleteRepository "x")))
    ∧ (delete "r" delFaultWorld
        = .err "InternalServerError" (bump delFaultWorld (.deleteRepository "r")))
    ∧ (∃ w1 w2 : World, delete "r" delWorld = .ok () w1 ∧ delete "r" w1 = .ok () w2) :=
  ⟨(delete_notfound_ok_and_idempotent delWorld "x").1 (fun _ => rfl) rfl,
   (delete_notfound_ok_and_idempotent delFaultWorld "r").2.1 "InternalServerError"
      rfl (by decide),
   (delete_notfound_ok_and_idempotent delWorld "r").2.2 (fun _ => rfl)⟩

theorem prepare_twice_single_create_witness :
    ∃ w1 w2 : World,
      prepare "test-sandbox" (initWorld 0) = .ok () w1
      ∧ prepare "test-sandbox" w1 = .ok () w2
      ∧ w1.trace.count (.createRepository "test-sandbox") = 1
      ∧ w2.trace = w1.trace ++ [.describeDomain,
          .describeRepository npmUpstream, .describeRepository mavenUpstream,
          .describeRepository nugetUpstream, .describeRepository pypiUpstream,
          .describeRepository "test-sandbox"]
      ∧ w2.trace.count (.createRepository "test-sandbox") = 1 :=
  prepare_twice_single_create "test-sandbox" 0
    (by decide) (by decide) (by decide) (by decide)

/-- **C6.** Only the external-connection association is wrapped in the
retry policy.  Injecting a (non-not-found) fault into each provisioning
call in turn: a faulted `describeDomain` probe (call 0), `createDomain`
(call 1), `describeRepository` probe (call 2) or `createRepository`
(call 3) surfaces the error immediately — the final trace holds that
call exactly once and no `sleep` — while a persistently faulted
`associateExternalConnection` is attempted 4 times with three 500 ms
sleeps before the error surfaces. -/
theorem retry_covers_only_association (name : String) (now : Nat) (code : ErrCode)
    (hc : code ≠ resourceNotFound) :
    (prepare name (faultAt 0 code now) = .err code
      { faultAt 0 code now with trace := [.describeDomain], callIdx := 1 })
    ∧ (prepare name (faultAt 1 code now) = .err code
      { faultAt 1 code now with trace := [.describeDomain, .createDomain], callIdx := 2 })
    ∧ (prepare name (faultAt 2 code now) = .err code
      { faultAt 2 code now with
        hasDomain := true,
        trace := [.describeDomain, .createDomain, .describeRepository npmUpstream],
        callIdx := 3 })
    ∧ (prepare name (faultAt 3 code now) = .err code
      { faultAt 3 code now with
        hasDomain := true,
        trace := [.describeDomain, .createDomain, .describeRepository npmUpstream,
          .createRepository npmUpstream],
        callIdx := 4 })
    ∧ (prepare name (faultFrom 4 code now) = .err code
      { faultFrom 4 code now with
        hasDomain := true,
        repos := [(npmUpstream, npmRecBare)],
        trace := assocFailTrace,
        callIdx := 8 }) := by
  have hb : (code == resourceNotFound) = false := beq_eq_false_iff_ne.mpr hc
  refine ⟨?_, rfl, ?_, rfl, rfl⟩
  · have hdesc : describeDomainCall (faultAt 0 code now)
        = .err code (bump (faultAt 0 code now) .describeDomain) := by
      unfold describeDomainCall
      exact apiCall_fault rfl
    have hde : domainExists (faultAt 0 code now)
        = .err code (bump (faultAt 0 code now) .describeDomain) := by
      unfold domainExists
      rw [tryCatch_err (sbind_err hdesc)]
      simp [hb, StM.throw]
    have hed : ensureDomain (faultAt 0 code now)
        = .err code (bump (faultAt 0 code now) .describeDomain) := by
      unfold ensureDomain
      exact sbind_err hde
    unfold prepare
    rw [sbind_err hed]
    rfl
  · have h2 : ensureDomain (faultAt 2 code now)
        = .ok () { faultAt 2 code now with
            hasDomain := true,
            trace := [.describeDomain, .createDomain],
            callIdx := 2 } := rfl
    have hdescR : describeRepositoryCall npmUpstream
        ({ faultAt 2 code now with
            hasDomain := true,
            trace := [.describeDomain, .createDomain],
            callIdx := 2 })
        = .err code (bump ({ faultAt 2 code now with
            hasDomain := true,
            trace := [.describeDomain, .createDomain],
            callIdx := 2 }) (.describeRepository npmUpstream)) := by
      unfold describeRepositoryCall
      exact apiCall_fault rfl
    have hre : repositoryExists npmUpstream
        ({ faultAt 2 code now with
            hasDomain := true,
            trace := [.describeDomain, .createDomain],
            callIdx := 2 })
        = .err code (bump ({ faultAt 2 code now with
            hasDomain := true,
            trace := [.describeDomain, .createDomain],
            callIdx := 2 }) (.describeRepository npmUpstream)) := by
      unfold repositoryExists
      rw [tryCatch_err (sbind_err hdescR)]
      simp [hb, StM.throw]
    have her : ensureRepository npmUpstream
        { description := some "The upstream repository for NPM"
          external := some "public:npmjs" }
        ({ faultAt 2 code now with
            hasDomain := true,
            trace := [.describeDomain, .createDomain],
            callIdx := 2 })
        = .err code (bump ({ faultAt 2 code now with
            hasDomain := true,
            trace := [.describeDomain, .createDomain],
            callIdx := 2 }) (.describeRepository npmUpstream)) := by
      unfold ensureRepository
      exact sbind_err hre
    have heu : ensureUpstreams
        ({ faultAt 2 code now with
            hasDomain := true,
            trace := [.describeDomain, .createDomain],
            callIdx := 2 })
        = .err code (bump ({ faultAt 2 code now with
            hasDomain := true,
            trace := [.describeDomain, .createDomain],
            callIdx := 2 }) (.describeRepository npmUpstream)) := by
      unfold ensureUpstreams
      exact sbind_err her
    unfold prepare
    rw [sbind_ok h2, sbind_err heu]
    rfl

theorem retry_covers_only_association_witness :
    (prepare "test-sandbox" (faultAt 0 "InternalServerError" 0) = .err "InternalServerError"
      { faultAt 0 "InternalServerError" 0 with trace := [.describeDomain], callIdx := 1 })
    ∧ (prepare "test-sandbox" (faultAt 1 "InternalServerError" 0) = .err "InternalServerError"
      { faultAt 1 "InternalServerError" 0 with
        trace := [.describeDomain, .createDomain], callIdx := 2 })
    ∧ (prepare "test-sandbox" (faultAt 2 "InternalServerError" 0) = .err "InternalServerError"
      { faultAt 2 "InternalServerError" 0 with
        hasDomain := true,
        trace := [.describeDomain, .createDomain, .describeRepository npmUpstream],
        callIdx := 3 })
    ∧ (prepare "test-sandbox" (faultAt 3 "InternalServerError" 0) = .err "InternalServerError"
      { faultAt 3 "InternalServerError" 0 with
        hasDomain := true,
        trace := [.describeDomain, .createDomain, .describeRepository npmUpstream,
          .createRepository npmUpstream],
        callIdx := 4 })
    ∧ (prepare "test-sandbox" (faultFrom 4 "InternalServerError" 0) = .err "InternalServerError"
      { faultFrom 4 "InternalServerError" 0 with
        hasDomain := true,
        repos := [(npmUpstream, npmRecBare)],
        trace := assocFailTrace,
        callIdx := 8 }) :=
  retry_covers_only_association "test-sandbox" 0 "InternalServerError" (by decide)

/-- C9's scenario, first run: the world after `prepare` created the npm
upstream but every association attempt faulted. -/
def c9FirstWorld (code : ErrCode) (now : Nat) : World :=
  { faultFrom 4 code now with
    hasDomain := true,
    repos := [(npmUpstream, npmRecBare)],
    trace := assocFailTrace,
    callIdx := 8 }

/-- C9's scenario, second run (faults cleared): everything else gets
provisioned, but the npm upstream keeps its empty connection list. -/
def c9SecondWorld (now : Nat) : World :=
  { hasDomain := true
    repos := [(npmUpstream, npmRecBare), (mavenUpstream, mavenRec),
      (nugetUpstream, nugetRec), (pypiUpstream, pypiRec),
      ("test-sandbox", sandboxRec now)]
    pages := []
    now := now
    faults := fun _ => none
    callIdx := 21
    trace := assocFailTrace ++
      [.describeDomain, .describeRepository npmUpstream,
       .describeRepository mavenUpstream, .createRepository mavenUpstream,
       .associateExternalConnection mavenUpstream "public:maven-central",
       .describeRepository nugetUpstream, .createRepository nugetUpstream,
       .associateExternalConnection nugetUpstream "public:nuget-org",
       .describeRepository pypiUpstream, .createRepository pypiUpstream,
       .associateExternalConnection pypiUpstream "public:pypi",
       .describeRepository "test-sandbox", .createRepository "test-sandbox"] }

set_option maxHeartbeats 4000000 in
/-- **C9.** The probe–create–associate sequence is not atomic: when
`createRepository` succeeds for the npm upstream but every retried
association attempt fails, the error propagates (after 4 attempts)
while the repository stays created with no external connection; a later
`prepare` (faults gone) finds the repository existing, returns from the
probe early, creates everything else — and never attempts the npm
association again, leaving that upstream permanently without its
external connection. -/
theorem association_failure_leaves_upstream_bare (now : Nat) (code : ErrCode) :
    prepare "test-sandbox" (faultFrom 4 code now) = .err code (c9FirstWorld code now)
    ∧ getRepo (c9FirstWorld code now) npmUpstream = some npmRecBare
    ∧ (c9FirstWorld code now).trace.count
        (.associateExternalConnection npmUpstream "public:npmjs") = 4
    ∧ prepare "test-sandbox" { c9FirstWorld code now with faults := fun _ => none }
        = .ok () (c9SecondWorld now)
    ∧ getRepo (c9SecondWorld now) npmUpstream = some npmRecBare
    ∧ npmRecBare.externalConnections = []
    ∧ (c9SecondWorld now).trace.count (.createRepository npmUpstream) = 1
    ∧ (c9SecondWorld now).trace.count
        (.associateExternalConnection npmUpstream "public:npmjs") = 4 :=
  ⟨rfl, rfl, rfl, rfl, rfl, rfl, rfl, rfl⟩

/-! ## Login information (C8) -/

theorem getAuthorizationToken_ok {w : World}
    (hf : w.faults w.callIdx = none) (hd : w.hasDomain = true) :
    getAuthorizationTokenCall w = .ok "auth-token" (bump w .getAuthorizationToken) := by
  unfold getAuthorizationTokenCall
  rw [apiCall_clear hf]
  have hb : (bump w .getAuthorizationToken).hasDomain = true := hd
  simp [hb]

theorem getAuthorizationToken_noDomain {w : World}
    (hf : w.faults w.callIdx = none) (hd : w.hasDomain = false) :
    getAuthorizationTokenCall w
      = .err resourceNotFound (bump w .getAuthorizationToken) := by
  unfold getAuthorizationTokenCall
  rw [apiCall_clear hf]
  have hb : (bump w .getAuthorizationToken).hasDomain = false := hd
  simp [hb]

theorem getRepositoryEndpoint_absent {w : World} {name format : String}
    (hf : w.faults w.callIdx = none) (hg : getRepo w name = none) :
    getRepositoryEndpointCall name format w
      = .err resourceNotFound (bump w (.getRepositoryEndpoint name format)) := by
  unfold getRepositoryEndpointCall
  rw [apiCall_clear hf]
  have hb : getRepo (bump w (.getRepositoryEndpoint name format)) name = none := hg
  simp [hb]

/-- **C8 (amended).** `loginInformation()` rejects with a not-found
condition whenever the sandbox repository does not exist — but not
because each of its five calls rejects: execution stops at the first
rejection.  With the domain present the (domain-scoped) auth-token
request succeeds and the npm endpoint lookup rejects; with the domain
absent already the token request rejects.  Later calls are never
made. -/
theorem loginInformation_absent_rejects {w : World} {name : String}
    (hf : ∀ k, w.faults k = none) (hg : getRepo w name = none) :
    ∃ v : World, loginInformation name w = .err resourceNotFound v
      ∧ v.trace = w.trace ++ (if w.hasDomain then
          [.getAuthorizationToken, .getRepositoryEndpoint name "npm"]
          else [.getAuthorizationToken]) := by
  unfold loginInformation
  match hd : w.hasDomain with
  | true =>
    refine ⟨bump (bump w .getAuthorizationToken) (.getRepositoryEndpoint name "npm"),
      ?_, ?_⟩
    · rw [sbind_ok (getAuthorizationToken_ok (hf _) hd)]
      have hg1 : getRepo (bump w .getAuthorizationToken) name = none := hg
      exact sbind_err (getRepositoryEndpoint_absent (hf _) hg1)
    · simp [bump, hd]
  | false =>
    refine ⟨bump w .getAuthorizationToken, ?_, ?_⟩
    · exact sbind_err (getAuthorizationToken_noDomain (hf _) hd)
    · simp [bump, hd]

/-- Domain present, no repositories at all: the setting of C8. -/
def loginWorld : World :=
  { hasDomain := true
    repos := []
    pages := []
    now := 0
    faults := fun _ => none
    callIdx := 0
    trace := [] }

theorem loginInformation_absent_rejects_witness :
    ∃ v : World, loginInformation "test-sandbox" loginWorld = .err resourceNotFound v
      ∧ v.trace = loginWorld.trace ++ (if loginWorld.hasDomain then
          [.getAuthorizationToken, .getRepositoryEndpoint "test-sandbox" "npm"]
          else [.getAuthorizationToken]) :=
  loginInformation_absent_rejects (fun _ => rfl) rfl

/-- **C8 (counterexample).** In `loginWorld` the sandbox repository
does not exist, yet the auth-token request does not reject — it
resolves (it names only the domain) — and the failing run performs
just two calls, so the maven, nuget and pypi endpoint lookups never
reject either: the claim that each of the five registry calls rejects
with a not-found condition is false here. -/
theorem login_token_call_succeeds_counterexample :
    getRepo loginWorld "test-sandbox" = none
    ∧ getAuthorizationTokenCall loginWorld
        = .ok "auth-token" (bump loginWorld .getAuthorizationToken)
    ∧ loginInformation "test-sandbox" loginWorld
        = .err resourceNotFound
            (bump (bump loginWorld .getAuthorizationToken)
              (.getRepositoryEndpoint "test-sandbox" "npm"))
    ∧ (bump (bump loginWorld .getAuthorizationToken)
        (.getRepositoryEndpoint "test-sandbox" "npm")).trace
        = [.getAuthorizationToken, .getRepositoryEndpoint "test-sandbox" "npm"] :=
  ⟨rfl, rfl, rfl, rfl⟩

/-! ## The garbage-collection sweep (C1, C7, C10) -/

/-- The sweep's verdict on one repository record: some tag has key
`collect-by` and a numeric value below `now`. -/
def isCollectable (now : Nat) (r : RepoRecord) : Bool :=
  (r.tags.find? (collectTagMatch now)).isSome

/-- The calls the sweep makes for one repository: read its tags and,
when collectable, delete it. -/
def repoSweepTrace (now : Nat) (r : RepoRecord) (name : String) : List Event :=
  .listTagsForResource name ::
    (if isCollectable now r then [.deleteRepository name] else [])

/-- The calls the sweep makes over one page of repository names, reading
every record in the world `w` the sweep started from. -/
def pageSweepTrace (w : World) (now : Nat) : List String → List Event
  | [] => []
  | n :: rest =>
    (match getRepo w n with
     | some r => repoSweepTrace now r n
     | none => []) ++ pageSweepTrace w now rest

/-- The calls the whole sweep makes: one `listRepositories` per page,
then that page's per-repository calls. -/
def sweepTrace (w : World) (now : Nat) : List (List String) → List Event
  | [] => []
  | page :: rest =>
    .listRepositories :: (pageSweepTrace w now page ++ sweepTrace w now rest)

theorem lookupRepo_filter_ne (l : List (String × RepoRecord)) {name m : String}
    (h : m ≠ name) :
    lookupRepo (l.filter (fun p => !(p.1 == name))) m = lookupRepo l m := by
  induction l with
  | nil => rfl
  | cons p rest ih =>
    by_cases hp : (p.1 == name) = true
    · have hpn : p.1 = name := by simpa [beq_iff_eq] using hp
      have hpm : (p.1 == m) = false := by
        simp [beq_eq_false_iff_ne, hpn]
        exact fun hh => h hh.symm
      simp [List.filter, hp, lookupRepo, hpm, ih]
    · simp only [List.filter, hp, Bool.not_false]
      simp [lookupRepo, ih]

theorem pageSweepTrace_congr {w w' : World} {now : Nat} (names : List String)
    (h : ∀ n ∈ names, getRepo w' n = getRepo w n) :
    pageSweepTrace w' now names = pageSweepTrace w now names := by
  induction names with
  | nil => rfl
  | cons n rest ih =>
    have hn := h n (by simp)
    have hrest := ih (fun m hm => h m (by simp [hm]))
    simp [pageSweepTrace, hn, hrest]

theorem sweepTrace_congr {w w' : World} {now : Nat} (pages : List (List String))
    (h : ∀ n ∈ pages.flatten, getRepo w' n = getRepo w n) :
    sweepTrace w' now pages = sweepTrace w now pages := by
  induction pages with
  | nil => rfl
  | cons page rest ih =>
    have hpage := @pageSweepTrace_congr w w' now page
      (fun m hm => h m (by simp [hm]))
    have hrest := ih (fun m hm => h m (by simp [hm]))
    simp [sweepTrace, hpage, hrest]

/-- Fault-free run of the sweep's per-repository loop over one page of
distinct, present names: it succeeds, performs exactly the calls of
`pageSweepTrace`, and touches no repository outside the page. -/
theorem processRepos_run (names : List String) (w : World)
    (hf : ∀ k, w.faults k = none)
    (hnd : names.Nodup)
    (hp : ∀ n ∈ names, ∃ r, getRepo w n = some r) :
    ∃ v : World, processRepos names w = .ok () v
      ∧ v.trace = w.trace ++ pageSweepTrace w w.now names
      ∧ v.faults = w.faults
      ∧ v.now = w.now
      ∧ v.pages = w.pages
      ∧ v.hasDomain = w.hasDomain
      ∧ (∀ m, m ∉ names → getRepo v m = getRepo w m) := by
  induction names generalizing w with
  | nil =>
    exact ⟨w, rfl, by simp [pageSweepTrace], rfl, rfl, rfl, rfl, fun m _ => rfl⟩
  | cons n rest ih =>
    obtain ⟨r, hr⟩ := hp n (by simp)
    have h1 : listTagsForResourceCall n w
        = .ok r.tags (bump w (.listTagsForResource n)) :=
      listTags_present (hf _) hr
    have hnd2 : rest.Nodup := (List.nodup_cons.mp hnd).2
    have hnmem : n ∉ rest := (List.nodup_cons.mp hnd).1
    by_cases hcol : isCollectable w.now r = true
    · -- collectable: the repository is deleted, then the loop continues
      have hr1 : getRepo (bump w (.listTagsForResource n)) n = some r := hr
      have hdel : deleteRepositoryCall n (bump w (.listTagsForResource n))
          = .ok () { bump (bump w (.listTagsForResource n)) (.deleteRepository n) with
              repos := (bump w (.listTagsForResource n)).repos.filter
                (fun p => !(p.1 == n)) } :=
        deleteRepository_present (hf _) hr1
      have hpres : ∀ m, m ≠ n →
          getRepo ({ bump (bump w (.listTagsForResource n)) (.deleteRepository n) with
            repos := (bump w (.listTagsForResource n)).repos.filter
              (fun p => !(p.1 == n)) }) m = getRepo w m := by
        intro m hm
        show lookupRepo (w.repos.filter (fun p => !(p.1 == n))) m = lookupRepo w.repos m
        exact lookupRepo_filter_ne w.repos hm
      have hp2 : ∀ m ∈ rest, ∃ r',
          getRepo ({ bump (bump w (.listTagsForResource n)) (.deleteRepository n) with
            repos := (bump w (.listTagsForResource n)).repos.filter
              (fun p => !(p.1 == n)) }) m = some r' := by
        intro m hm
        obtain ⟨r', hr'⟩ := hp m (by simp [hm])
        have hne : m ≠ n := by
          rintro rfl
          exact hnmem hm
        exact ⟨r', by rw [hpres m hne]; exact hr'⟩
      obtain ⟨v, hv, hvt, hvf, hvn, hvp, hvd, hvpres⟩ :=
        ih ({ bump (bump w (.listTagsForResource n)) (.deleteRepository n) with
            repos := (bump w (.listTagsForResource n)).repos.filter
              (fun p => !(p.1 == n)) }) hf hnd2 hp2
      have hPST : pageSweepTrace
          ({ bump (bump w (.listTagsForResource n)) (.deleteRepository n) with
            repos := (bump w (.listTagsForResource n)).repos.filter
              (fun p => !(p.1 == n)) })
          ({ bump (bump w (.listTagsForResource n)) (.deleteRepository n) with
            repos := (bump w (.listTagsForResource n)).repos.filter
              (fun p => !(p.1 == n)) }).now
          rest = pageSweepTrace w w.now rest := by
        refine pageSweepTrace_congr rest (fun m hm => ?_)
        have hne : m ≠ n := by
          rintro rfl
          exact hnmem hm
        exact hpres m hne
      refine ⟨v, ?_, ?_, hvf, hvn, hvp, hvd, ?_⟩
      · unfold processRepos
        rw [sbind_ok h1, sbind_ok (getNow_run _)]
        have hcol1 : (r.tags.find?
            (collectTagMatch (bump w (.listTagsForResource n)).now)).isSome = true := hcol
        rw [if_pos hcol1]
        rw [sbind_ok hdel]
        exact hv
      · rw [hvt, hPST]
        simp [pageSweepTrace, repoSweepTrace, hr, hcol, bump]
      · intro m hm
        have hmr : m ∉ rest := fun hh => hm (by simp [hh])
        have hmn : m ≠ n := fun hh => hm (by simp [hh])
        rw [hvpres m hmr, hpres m hmn]
    · -- not collectable: nothing is deleted, the loop continues
      have hcolF : isCollectable w.now r = false := by
        simpa using hcol
      have hp2 : ∀ m ∈ rest, ∃ r',
          getRepo (bump w (.listTagsForResource n)) m = some r' := by
        intro m hm
        obtain ⟨r', hr'⟩ := hp m (by simp [hm])
        exact ⟨r', hr'⟩
      obtain ⟨v, hv, hvt, hvf, hvn, hvp, hvd, hvpres⟩ :=
        ih (bump w (.listTagsForResource n)) hf hnd2 hp2
      have hPST : pageSweepTrace (bump w (.listTagsForResource n))
          (bump w (.listTagsForResource n)).now rest
          = pageSweepTrace w w.now rest :=
        pageSweepTrace_congr rest (fun m _ => rfl)
      refine ⟨v, ?_, ?_, hvf, hvn, hvp, hvd, ?_⟩
      · unfold processRepos
        rw [sbind_ok h1, sbind_ok (getNow_run _)]
        have hcol1 : (r.tags.find?
            (collectTagMatch (bump w (.listTagsForResource n)).now)).isSome = false := hcolF
        rw [if_neg (by simp [hcol1])]
        rw [sbind_ok (show StM.pure () (bump w (.listTagsForResource n))
          = .ok () (bump w (.listTagsForResource n)) from rfl)]
        exact hv
      · rw [hvt, hPST]
        simp [pageSweepTrace, repoSweepTrace, hr, hcolF, bump]
      · intro m hm
        have hmr : m ∉ rest := fun hh => hm (by simp [hh])
        exact hvpres m hmr

/-- Fault-free run of the sweep's pagination loop: it succeeds and
performs exactly the calls of `sweepTrace`. -/
theorem gcPages_run (pages : List (List String)) (w : World)
    (hf : ∀ k, w.faults k = none)
    (hnd : pages.flatten.Nodup)
    (hp : ∀ n ∈ pages.flatten, ∃ r, getRepo w n = some r) :
    ∃ v : World, gcPages pages w = .ok () v
      ∧ v.trace = w.trace ++ sweepTrace w w.now pages
      ∧ v.faults = w.faults
      ∧ v.now = w.now
      ∧ v.pages = w.pages
      ∧ v.hasDomain = w.hasDomain
      ∧ (∀ m, m ∉ pages.flatten → getRepo v m = getRepo w m) := by
  induction pages generalizing w with
  | nil => exact ⟨w, rfl, by simp [sweepTrace], rfl, rfl, rfl, rfl, fun m _ => rfl⟩
  | cons page rest ih =>
    have hsplit := List.nodup_append.mp (by simpa using hnd)
    have h1 : listRepositoriesPageCall page w = .ok page (bump w .listRepositories) :=
      listRepositoriesPage_run (hf _)
    obtain ⟨v1, hv1, hv1t, hv1f, hv1n, hv1p, hv1d, hv1pres⟩ :=
      processRepos_run page (bump w .listRepositories) hf hsplit.1
        (fun n hn => hp n (by simp [hn]))
    have hf1 : ∀ k, v1.faults k = none := fun k => by rw [hv1f]; exact hf k
    have hp1 : ∀ n ∈ rest.flatten, ∃ r, getRepo v1 n = some r := by
      intro n hn
      obtain ⟨r, hr⟩ := hp n (by simp [hn])
      have hnp : n ∉ page := fun hmem => hsplit.2.2 hmem hn
      exact ⟨r, by rw [hv1pres n hnp]; exact hr⟩
    obtain ⟨v, hv, hvt, hvf, hvn, hvp, hvd, hvpres⟩ := ih v1 hf1 hsplit.2.1 hp1
    have hPST : pageSweepTrace (bump w .listRepositories)
        (bump w .listRepositories).now page = pageSweepTrace w w.now page :=
      pageSweepTrace_congr page (fun m _ => rfl)
    have hST : sweepTrace v1 v1.now rest = sweepTrace w w.now rest := by
      have hnw : v1.now = w.now := hv1n
      rw [hnw]
      refine sweepTrace_congr rest (fun m hm => ?_)
      have hmp : m ∉ page := fun hmem => hsplit.2.2 hmem hm
      exact (hv1pres m hmp).trans rfl
    refine ⟨v, ?_, ?_, ?_, ?_, ?_, ?_, ?_⟩
    · unfold gcPages
      rw [sbind_ok h1, sbind_ok hv1]
      exact hv
    · rw [hvt, hST, hv1t, hPST]
      simp [sweepTrace, bump, List.append_assoc]
    · rw [hvf, hv1f]
      rfl
    · rw [hvn, hv1n]
      rfl
    · rw [hvp, hv1p]
      rfl
    · rw [hvd, hv1d]
      rfl
    · intro m hm
      have hmp : m ∉ page := fun hmem => hm (by simp [hmem])
      have hmr : m ∉ rest.flatten := fun hmem => hm (by simp [hmem])
      rw [hvpres m hmr, hv1pres m hmp]
      rfl

/-- Fault-free run of the whole sweep with the domain present: one
`describeDomain` probe, then exactly the calls of `sweepTrace`. -/
theorem gc_run (w : World)
    (hf : ∀ k, w.faults k = none)
    (hd : w.hasDomain = true)
    (hnd : w.pages.flatten.Nodup)
    (hp : ∀ n ∈ w.pages.flatten, ∃ r, getRepo w n = some r) :
    ∃ v : World, gc w = .ok () v
      ∧ v.trace = w.trace ++ .describeDomain :: sweepTrace w w.now w.pages
      ∧ (∀ m, m ∉ w.pages.flatten → getRepo v m = getRepo w m) := by
  have hde : domainExists w = .ok true (bump w .describeDomain) :=
    domainExists_true (hf _) hd
  obtain ⟨v, hv, hvt, _, _, _, _, hvpres⟩ :=
    gcPages_run w.pages (bump w .describeDomain) hf hnd hp
  have hST : sweepTrace (bump w .describeDomain) (bump w .describeDomain).now w.pages
      = sweepTrace w w.now w.pages :=
    sweepTrace_congr w.pages (fun m _ => rfl)
  refine ⟨v, ?_, ?_, ?_⟩
  · unfold gc
    rw [sbind_ok hde]
    show StM.bind getPages gcPages (bump w .describeDomain) = .ok () v
    rw [sbind_ok (show getPages (bump w .describeDomain)
      = .ok w.pages (bump w .describeDomain) from rfl)]
    exact hv
  · rw [hvt, hST]
    simp [bump]
  · intro m hm
    exact (hvpres m hm).trans rfl

/-- The sweep's verdict unfolded: some tag has the `collect-by` key and
a value numerically below `now`. -/
theorem isCollectable_iff (now : Nat) (r : RepoRecord) :
    isCollectable now r = true
      ↔ ∃ t ∈ r.tags, t.1 = COLLECT_BY_TAG ∧ jsLtNat t.2 now = true := by
  simp [isCollectable, List.find?_isSome, collectTagMatch, Bool.and_eq_true, beq_iff_eq]

theorem delete_mem_repoSweepTrace {now : Nat} {r : RepoRecord} {m n : String} :
    Event.deleteRepository n ∈ repoSweepTrace now r m
      ↔ (n = m ∧ isCollectable now r = true) := by
  by_cases hcol : isCollectable now r = true
  · simp [repoSweepTrace, hcol]
  · simp [repoSweepTrace, hcol]

theorem delete_mem_pageSweepTrace {w : World} {now : Nat} {n : String}
    (names : List String)
    (hp : ∀ m ∈ names, ∃ r, getRepo w m = some r) :
    Event.deleteRepository n ∈ pageSweepTrace w now names
      ↔ (n ∈ names ∧ ∃ r, getRepo w n = some r ∧ isCollectable now r = true) := by
  induction names with
  | nil => simp [pageSweepTrace]
  | cons m rest ih =>
    obtain ⟨rm, hrm⟩ := hp m (by simp)
    have ihr := ih (fun x hx => hp x (by simp [hx]))
    simp only [pageSweepTrace, hrm, List.mem_append, delete_mem_repoSweepTrace, ihr,
      List.mem_cons]
    constructor
    · rintro (⟨rfl, hcol⟩ | ⟨hmem, r, hr, hcol⟩)
      · exact ⟨Or.inl rfl, rm, hrm, hcol⟩
      · exact ⟨Or.inr hmem, r, hr, hcol⟩
    · rintro ⟨hmem, r, hr, hcol⟩
      rcases hmem with rfl | hmem'
      · rw [hrm] at hr
        cases hr
        exact Or.inl ⟨rfl, hcol⟩
      · exact Or.inr ⟨hmem', r, hr, hcol⟩

theorem delete_mem_sweepTrace {w : World} {now : Nat} {n : String}
    (pages : List (List String))
    (hp : ∀ m ∈ pages.flatten, ∃ r, getRepo w m = some r) :
    Event.deleteRepository n ∈ sweepTrace w now pages
      ↔ (n ∈ pages.flatten ∧ ∃ r, getRepo w n = some r ∧ isCollectable now r = true) := by
  induction pages with
  | nil => simp [sweepTrace]
  | cons page rest ih =>
    have h1 := @delete_mem_pageSweepTrace w now n page
      (fun m hm => hp m (by simp [hm]))
    have h2 := ih (fun m hm => hp m (by simp [hm]))
    simp only [sweepTrace, List.mem_cons, List.mem_append, h1, h2, List.flatten_cons]
    constructor
    · rintro (h | ⟨hmem, hex⟩ | ⟨hmem, hex⟩)
      · exact absurd h (by simp)
      · exact ⟨Or.inl hmem, hex⟩
      · exact ⟨Or.inr hmem, hex⟩
    · rintro ⟨hmem, hex⟩
      rcases hmem with h | h
      · exact Or.inr (Or.inl ⟨h, hex⟩)
      · exact Or.inr (Or.inr ⟨h, hex⟩)

/-- **C1.** In a fault-free sweep with the domain present, a repository
returned by the pagination is deleted (its `deleteRepository` call is
issued) if and only if its tags contain a tag with key `collect-by`
whose numeric value is strictly below the sweep-time clock; a
repository with no `collect-by` tag is never deleted by the sweep. -/
theorem gc_deletes_iff_expired (w : World)
    (hf : ∀ k, w.faults k = none)
    (hd : w.hasDomain = true)
    (htr : w.trace = [])
    (hnd : w.pages.flatten.Nodup)
    (hp : ∀ n ∈ w.pages.flatten, ∃ r, getRepo w n = some r) :
    ∃ v : World, gc w = .ok () v
      ∧ (∀ n ∈ w.pages.flatten, ∀ r, getRepo w n = some r →
          (Event.deleteRepository n ∈ v.trace
            ↔ ∃ t ∈ r.tags, t.1 = COLLECT_BY_TAG ∧ jsLtNat t.2 w.now = true))
      ∧ (∀ n ∈ w.pages.flatten, ∀ r, getRepo w n = some r →
          (∀ t ∈ r.tags, t.1 ≠ COLLECT_BY_TAG) →
          Event.deleteRepository n ∉ v.trace) := by
  obtain ⟨v, hv, hvt, -⟩ := gc_run w hf hd hnd hp
  have hiff : ∀ n ∈ w.pages.flatten, ∀ r, getRepo w n = some r →
      (Event.deleteRepository n ∈ v.trace
        ↔ ∃ t ∈ r.tags, t.1 = COLLECT_BY_TAG ∧ jsLtNat t.2 w.now = true) := by
    intro n hn r hr
    rw [hvt, htr]
    rw [show ([] : List Event) ++ .describeDomain :: sweepTrace w w.now w.pages
      = .describeDomain :: sweepTrace w w.now w.pages from rfl]
    rw [List.mem_cons]
    rw [delete_mem_sweepTrace w.pages hp]
    constructor
    · rintro (h | ⟨-, r', hr', hcol⟩)
      · exact absurd h (by simp)
      · rw [hr] at hr'
        cases hr'
        exact (isCollectable_iff _ _).mp hcol
    · intro hex
      exact Or.inr ⟨hn, r, hr, (isCollectable_iff _ _).mpr hex⟩
  refine ⟨v, hv, hiff, ?_⟩
  intro n hn r hr hno hmem
  obtain ⟨t, ht, hkey, -⟩ := (hiff n hn r hr).mp hmem
  exact hno t ht hkey

/-- Sweep witness world: one expired repository, one not yet due, one
without a `collect-by` tag, split over two pages. -/
def gcWorld : World :=
  { hasDomain := true
    repos := [("old-repo", { tags := [(COLLECT_BY_TAG, "5")] }),
      ("fresh-repo", { tags := [(COLLECT_BY_TAG, "5000")] }),
      ("untagged-repo", { tags := [("owner", "5")] })]
    pages := [["old-repo", "fresh-repo"], ["untagged-repo"]]
    now := 100
    faults := fun _ => none
    callIdx := 0
    trace := [] }

theorem gc_deletes_iff_expired_witness :
    ∃ v : World, gc gcWorld = .ok () v
      ∧ (∀ n ∈ gcWorld.pages.flatten, ∀ r, getRepo gcWorld n = some r →
          (Event.deleteRepository n ∈ v.trace
            ↔ ∃ t ∈ r.tags, t.1 = COLLECT_BY_TAG ∧ jsLtNat t.2 gcWorld.now = true))
      ∧ (∀ n ∈ gcWorld.pages.flatten, ∀ r, getRepo gcWorld n = some r →
          (∀ t ∈ r.tags, t.1 ≠ COLLECT_BY_TAG) →
          Event.deleteRepository n ∉ v.trace) :=
  gc_deletes_iff_expired gcWorld (fun _ => rfl) rfl rfl (by decide)
    (by
      intro n hn
      simp [gcWorld] at hn
      rcases hn with rfl | rfl | rfl
      · exact ⟨_, rfl⟩
      · exact ⟨_, rfl⟩
      · exact ⟨_, rfl⟩)

/-- A repository record whose `collect-by` value reads as NaN. -/
def nanRec : RepoRecord := { tags := [(COLLECT_BY_TAG, "not-a-number")] }

/-- **C10.** A repository whose `collect-by` tag value is not a numeric
string is never deleted by the sweep: `Number(value)` is NaN, the
strict comparison against the clock is `false`, so the repository is
not collectable no matter how large `now` is. -/
theorem gc_nan_tag_never_deleted (w : World) (n : String) (r : RepoRecord)
    (hf : ∀ k, w.faults k = none)
    (hd : w.hasDomain = true)
    (htr : w.trace = [])
    (hnd : w.pages.flatten.Nodup)
    (hp : ∀ m ∈ w.pages.flatten, ∃ q, getRepo w m = some q)
    (hr : getRepo w n = some r)
    (hnan : ∀ t ∈ r.tags, t.1 = COLLECT_BY_TAG → jsNumber t.2 = none) :
    (∀ t ∈ r.tags, t.1 = COLLECT_BY_TAG → jsLtNat t.2 w.now = false)
    ∧ ∃ v : World, gc w = .ok () v ∧ Event.deleteRepository n ∉ v.trace := by
  have hlt : ∀ t ∈ r.tags, t.1 = COLLECT_BY_TAG → jsLtNat t.2 w.now = false := by
    intro t ht hk
    simp [jsLtNat, hnan t ht hk]
  refine ⟨hlt, ?_⟩
  obtain ⟨v, hv, hvt, -⟩ := gc_run w hf hd hnd hp
  refine ⟨v, hv, ?_⟩
  rw [hvt, htr]
  intro hmem
  simp only [List.nil_append, List.mem_cons] at hmem
  rcases hmem with h | h
  · exact absurd h (by simp)
  · obtain ⟨-, r', hr', hcol⟩ := (delete_mem_sweepTrace w.pages hp).mp h
    rw [hr] at hr'
    cases hr'
    obtain ⟨t, ht, hk, hltT⟩ := (isCollectable_iff _ _).mp hcol
    rw [hlt t ht hk] at hltT
    simp at hltT

/-- The C10 witness world: one repository with a NaN `collect-by`
value, arbitrarily far past any plausible expiry. -/
def nanWorld : World :=
  { hasDomain := true
    repos := [("stuck-repo", nanRec)]
    pages := [["stuck-repo"]]
    now := 999999999999999
    faults := fun _ => none
    callIdx := 0
    trace := [] }

theorem gc_nan_tag_never_deleted_witness :
    (∀ t ∈ nanRec.tags, t.1 = COLLECT_BY_TAG → jsLtNat t.2 nanWorld.now = false)
    ∧ ∃ v : World, gc nanWorld = .ok () v
        ∧ Event.deleteRepository "stuck-repo" ∉ v.trace :=
  gc_nan_tag_never_deleted nanWorld "stuck-repo" nanRec (fun _ => rfl) rfl rfl
    (by decide)
    (by
      intro m hm
      simp [nanWorld] at hm
      subst hm
      exact ⟨_, rfl⟩)
    rfl
    (by
      intro t ht hk
      simp [nanRec] at ht
      subst ht
      rfl)

/-! ## C7: a deletion failure aborts the sweep -/

/-- A record carrying one `collect-by` tag with value `v`. -/
def pastTagRec (v : String) : RepoRecord := { tags := [(COLLECT_BY_TAG, v)] }

/-- Two collectable repositories over two pages; the service faults the
sweep's first `deleteRepository` call (the fourth outgoing call). `k`
and `tr` are the call cursor and trace, so one definition covers the
run's intermediate states. -/
def c7Pre (va vb : String) (code : ErrCode) (now : Nat) (k : Nat) (tr : List Event) :
    World :=
  { hasDomain := true
    repos := [("repo-a", pastTagRec va), ("repo-b", pastTagRec vb)]
    pages := [["repo-a"], ["repo-b"]]
    now := now
    faults := fun i => if i = 3 then some code else none
    callIdx := k
    trace := tr }

/-- The sweep's starting world for C7. -/
def c7World (va vb : String) (code : ErrCode) (now : Nat) : World :=
  c7Pre va vb code now 0 []

/-- Where the sweep stops: the failed delete of `repo-a` is its last
call; `repo-b` was never reached. -/
def c7AbortWorld (va vb : String) (code : ErrCode) (now : Nat) : World :=
  c7Pre va vb code now 4
    [.describeDomain, .listRepositories,
     .listTagsForResource "repo-a", .deleteRepository "repo-a"]

/-- **C7 (amended).** The sweep is not error-isolated per repository: a
`deleteRepository` failure propagates out of `gc()` and aborts the
sweep — the remaining repositories of the current page and of
subsequent pages are not examined.  Here both repositories are
collectable; the delete of `repo-a` faults; `gc` rejects with that
error, the second page is never listed, `repo-b`'s tags are never read
and `repo-b` — though overdue — survives. -/
theorem gc_delete_failure_aborts (va vb : String) (code : ErrCode) (now : Nat)
    (hva : jsLtNat va now = true) (hvb : jsLtNat vb now = true) :
    gc (c7World va vb code now) = .err code (c7AbortWorld va vb code now)
    ∧ (c7AbortWorld va vb code now).trace.count .listRepositories = 1
    ∧ Event.listTagsForResource "repo-b" ∉ (c7AbortWorld va vb code now).trace
    ∧ Event.deleteRepository "repo-b" ∉ (c7AbortWorld va vb code now).trace
    ∧ getRepo (c7AbortWorld va vb code now) "repo-b" = some (pastTagRec vb)
    ∧ isCollectable now (pastTagRec vb) = true := by
  have hkey : ((pastTagRec va).tags.find? (collectTagMatch now)).isSome = true := by
    simp [pastTagRec, collectTagMatch, hva]
  have hkey3 : ((pastTagRec va).tags.find? (collectTagMatch
      (c7Pre va vb code now 3
        [.describeDomain, .listRepositories,
         .listTagsForResource "repo-a"]).now)).isSome = true := hkey
  have h1 : domainExists (c7World va vb code now)
      = .ok true (c7Pre va vb code now 1 [.describeDomain]) :=
    domainExists_true rfl rfl
  have h2 : listRepositoriesPageCall ["repo-a"]
        (c7Pre va vb code now 1 [.describeDomain])
      = .ok ["repo-a"]
        (c7Pre va vb code now 2 [.describeDomain, .listRepositories]) :=
    listRepositoriesPage_run rfl
  have h3 : listTagsForResourceCall "repo-a"
        (c7Pre va vb code now 2 [.describeDomain, .listRepositories])
      = .ok (pastTagRec va).tags
        (c7Pre va vb code now 3
          [.describeDomain, .listRepositories, .listTagsForResource "repo-a"]) :=
    listTags_present rfl rfl
  have h4 : deleteRepositoryCall "repo-a"
        (c7Pre va vb code now 3
          [.describeDomain, .listRepositories, .listTagsForResource "repo-a"])
      = .err code (c7AbortWorld va vb code now) := by
    unfold deleteRepositoryCall
    exact apiCall_fault rfl
  have h5 : processRepos ["repo-a"]
        (c7Pre va vb code now 2 [.describeDomain, .listRepositories])
      = .err code (c7AbortWorld va vb code now) := by
    unfold processRepos
    rw [sbind_ok h3, sbind_ok (getNow_run _)]
    rw [if_pos hkey3]
    rw [sbind_err h4]
  have h6 : gcPages [["repo-a"], ["repo-b"]]
        (c7Pre va vb code now 1 [.describeDomain])
      = .err code (c7AbortWorld va vb code now) := by
    unfold gcPages
    rw [sbind_ok h2, sbind_err h5]
  refine ⟨?_, rfl, by simp [c7AbortWorld, c7Pre], by simp [c7AbortWorld, c7Pre], rfl, ?_⟩
  · unfold gc
    rw [sbind_ok h1]
    show StM.bind getPages gcPages (c7Pre va vb code now 1 [.describeDomain])
      = .err code (c7AbortWorld va vb code now)
    rw [sbind_ok (show getPages (c7Pre va vb code now 1 [.describeDomain])
      = .ok [["repo-a"], ["repo-b"]] (c7Pre va vb code now 1 [.describeDomain])
      from rfl)]
    exact h6
  · simp [isCollectable, pastTagRec, collectTagMatch, hvb]

theorem gc_delete_failure_aborts_witness :
    gc (c7World "5" "6" "InternalServerError" 100)
      = .err "InternalServerError" (c7AbortWorld "5" "6" "InternalServerError" 100)
    ∧ (c7AbortWorld "5" "6" "InternalServerError" 100).trace.count .listRepositories = 1
    ∧ Event.listTagsForResource "repo-b"
        ∉ (c7AbortWorld "5" "6" "InternalServerError" 100).trace
    ∧ Event.deleteRepository "repo-b"
        ∉ (c7AbortWorld "5" "6" "InternalServerError" 100).trace
    ∧ getRepo (c7AbortWorld "5" "6" "InternalServerError" 100) "repo-b"
        = some (pastTagRec "6")
    ∧ isCollectable 100 (pastTagRec "6") = true :=
  gc_delete_failure_aborts "5" "6" "InternalServerError" 100 rfl rfl

/-- **C7 (counterexample).** At a concrete sweep where both `repo-a`
and `repo-b` are overdue and the delete of `repo-a` fails, `gc()` does
not continue: it rejects with the failure, and the trace shows `repo-b`
— an overdue repository of a subsequent page — was never listed,
examined or deleted.  This falsifies the claim that a deletion failure
does not abort the sweep. -/
theorem gc_abort_counterexample :
    gc (c7World "5" "6" "InternalServerError" 100)
      = .err "InternalServerError" (c7AbortWorld "5" "6" "InternalServerError" 100)
    ∧ (c7AbortWorld "5" "6" "InternalServerError" 100).trace
        = [.describeDomain, .listRepositories,
           .listTagsForResource "repo-a", .deleteRepository "repo-a"]
    ∧ Event.listTagsForResource "repo-b"
        ∉ (c7AbortWorld "5" "6" "InternalServerError" 100).trace
    ∧ getRepo (c7AbortWorld "5" "6" "InternalServerError" 100) "repo-b"
        = some (pastTagRec "6")
    ∧ isCollectable 100 (pastTagRec "6") = true :=
  ⟨rfl, rfl, by decide, rfl, rfl⟩

end CodeArtifact
